import Mathlib

/-!
Verification of the GuC command-channel layer
(`drivers/gpu/drm/i915/intel_guc.c`): the MMIO mailbox send protocol,
the host event handler, GGTT pin-bias initialization and VMA allocation,
and the parameter-block verbosity encoding.

Register offsets and firmware-interface constants live in headers that are
not part of the sampled sources; those definitions carry a doc comment
starting with `Modelled from the spec:`.  Everything else is translated
directly from `intel_guc.c`.
-/

namespace IntelGuc

/-! ## Error numbers (from errno headers; standard Linux values). -/

/-- Modelled from the spec: the distinguishable "no backend installed" errno
(`ENODEV`, from `errno.h`, not in the sampled sources). -/
def ENODEV : Int := 19

/-- Modelled from the spec: the distinguished `Timeout` errno
(`ETIMEDOUT`, from `errno.h`, not in the sampled sources). -/
def ETIMEDOUT : Int := 110

/-- Modelled from the spec: the I/O-failure errno (`EIO`, from `errno.h`,
not in the sampled sources; spelled `errEio` here). -/
def errEio : Int := 5

/-- Modelled from the spec: the address-space-exhausted errno (`ENOSPC`,
from `errno.h`, not in the sampled sources). -/
def ENOSPC : Int := 28

/-! ## Register-layout and firmware-interface constants. -/

/-- Modelled from the spec: the scratch-register bank used as the mailbox;
`SOFT_SCRATCH(n)` is register offset `0xc180 + 4*n` (`i915_reg.h`, not in
the sampled sources). -/
def SOFT_SCRATCH (n : Nat) : Nat := 0xc180 + 4 * n

/-- Modelled from the spec: number of scratch registers in the bank
(`SOFT_SCRATCH_COUNT`, `i915_reg.h`, not in the sampled sources). -/
def SOFT_SCRATCH_COUNT : Nat := 16

/-- Modelled from the spec: the dedicated interrupt-trigger ("doorbell")
register offset (`GUC_SEND_INTERRUPT`, `i915_reg.h`, not in the sampled
sources). -/
def GUC_SEND_INTERRUPT : Nat := 0xc4c8

/-- Modelled from the spec: the fixed doorbell trigger value
(`GUC_SEND_TRIGGER`, `i915_reg.h`, not in the sampled sources). -/
def GUC_SEND_TRIGGER : Nat := 1

/-- Modelled from the spec: the "response ready" bits polled in the first
mailbox register (`INTEL_GUC_RECV_MASK`, `intel_guc_fwif.h`, not in the
sampled sources). -/
def INTEL_GUC_RECV_MASK : Nat := 0xF0000000

/-- Modelled from the spec: the success status code; a response word that
carries the response-ready bits and a zero status field
(`INTEL_GUC_STATUS_SUCCESS`, `intel_guc_fwif.h`, not in the sampled
sources). -/
def INTEL_GUC_STATUS_SUCCESS : Nat := 0xF0000000

/-- Modelled from the spec: action code for registering the bidirectional
command-transport buffer (`intel_guc_fwif.h`, not in the sampled
sources). -/
def INTEL_GUC_ACTION_REGISTER_COMMAND_TRANSPORT_BUFFER : Nat := 0x4505

/-- Modelled from the spec: action code for deregistering the bidirectional
command-transport buffer (`intel_guc_fwif.h`, not in the sampled
sources). -/
def INTEL_GUC_ACTION_DEREGISTER_COMMAND_TRANSPORT_BUFFER : Nat := 0x4506

/-- Modelled from the spec: the crash-dump-posted event bit
(`INTEL_GUC_RECV_MSG_CRASH_DUMP_POSTED = BIT(1)`, `intel_guc_fwif.h`,
not in the sampled sources). -/
def INTEL_GUC_RECV_MSG_CRASH_DUMP_POSTED : Nat := 2

/-- Modelled from the spec: the flush-log-buffer event bit
(`INTEL_GUC_RECV_MSG_FLUSH_LOG_BUFFER = BIT(3)`, `intel_guc_fwif.h`,
not in the sampled sources). -/
def INTEL_GUC_RECV_MSG_FLUSH_LOG_BUFFER : Nat := 8

/-- Modelled from the spec: verbosity field shift in the debug control word
(`GUC_LOG_VERBOSITY_SHIFT`, `intel_guc_fwif.h`, not in the sampled
sources). -/
def GUC_LOG_VERBOSITY_SHIFT : Nat := 0

/-- Modelled from the spec: the maximum verbosity value
(`GUC_LOG_VERBOSITY_MAX`, `intel_guc_fwif.h`, not in the sampled
sources). -/
def GUC_LOG_VERBOSITY_MAX : Nat := 3

/-- Modelled from the spec: the logging-disabled value for the debug word
(`GUC_LOG_DISABLED`, `intel_guc_fwif.h`, not in the sampled sources). -/
def GUC_LOG_DISABLED : Nat := 1 <<< 6

/-! ## The send-register window (`guc->send_regs`). -/

/-- `struct intel_guc_send_regs`: the mailbox register window derived once
by `intel_guc_init_send_regs`. -/
structure SendRegs where
  base : Nat
  count : Nat
  fw_domains : Nat
  deriving DecidableEq, Repr

/-- Observable hardware/lock events emitted by the channel operations, in
program order.  `regWrite`/`regRead` are MMIO accesses at a register
offset; `pollEvent off mask value fastUs slowMs` is the bounded wait of
`__intel_wait_for_register_fw`; `warnLog` is the `DRM_WARN` diagnostic
carrying the action code, return value, raw status and the auxiliary
`SOFT_SCRATCH(15)` value; `warnUnexpected` is the `WARN` in
`intel_guc_send_nop`. -/
inductive Event where
  | lockAcquire
  | lockRelease
  | fwGet
  | fwPut
  | regWrite (off v : Nat)
  | regRead (off : Nat)
  | pollEvent (off mask value fastUs slowMs : Nat)
  | warnLog (a0 : Nat) (ret : Int) (status diag : Nat)
  | warnUnexpected (a0 : Nat)
  deriving DecidableEq, Repr

/-- `guc_send_reg(guc, i)`: offset of mailbox register `i`.  The three
`GEM_BUG_ON` assertions (zero base, zero count, index out of range) are
modelled as `none` (a fatal assertion, not a recoverable return). -/
def guc_send_reg (regs : SendRegs) (i : Nat) : Option Nat :=
  if regs.base = 0 then none
  else if regs.count = 0 then none
  else if regs.count ≤ i then none
  else some (regs.base + 4 * i)

/-- The write loop of `intel_guc_send_mmio`
(`for (i = 0; i < len; i++) I915_WRITE(guc_send_reg(guc, i), action[i])`),
threading the `guc_send_reg` assertions.  `i` is the index of the first
remaining action word. -/
def writeActions (regs : SendRegs) : Nat → List Nat → Option (List Event)
  | _, [] => some []
  | i, v :: rest =>
    match guc_send_reg regs i with
    | none => none
    | some off =>
      match writeActions regs (i + 1) rest with
      | none => none
      | some tail => some (Event.regWrite off v :: tail)

/-- Modelled from the spec: `__intel_wait_for_register_fw` polls the
register until `(read & mask) = value` or the timeout elapses, returning
`0` on success and `-ETIMEDOUT` on timeout, and storing the last value
read in the out-parameter.  The poll is represented by `final`, the last
value the wait observed in the register (it satisfies the mask condition
exactly when a response arrived within the timeout). -/
def wait_for_register_fw (mask value final : Nat) : Int × Nat :=
  (if final &&& mask = value then 0 else -ETIMEDOUT, final)

/-- `intel_guc_send_mmio(guc, action, len)`: the MMIO-based host-to-GuC
exchange.  The three `GEM_BUG_ON`s (`!len`, `len > count`, the
command-transport caller contract) are modelled as `none`.  `final` is the
last value the poll observed in mailbox register 0 and `diag` the value of
`SOFT_SCRATCH(15)` read for the diagnostic.  Returns the `int` result and
the ordered event trace. -/
def intel_guc_send_mmio (has_guc_ct : Bool) (regs : SendRegs)
    (action : List Nat) (final diag : Nat) : Option (Int × List Event) :=
  if action.length = 0 then none
  else if regs.count < action.length then none
  else if has_guc_ct = true ∧
      action.getD 0 0 ≠ INTEL_GUC_ACTION_REGISTER_COMMAND_TRANSPORT_BUFFER ∧
      action.getD 0 0 ≠ INTEL_GUC_ACTION_DEREGISTER_COMMAND_TRANSPORT_BUFFER
    then none
  else
    match writeActions regs 0 action with
    | none => none
    | some writes =>
      match guc_send_reg regs (action.length - 1), guc_send_reg regs 0 with
      | some lastOff, some pollOff =>
        let wait := wait_for_register_fw INTEL_GUC_RECV_MASK
                      INTEL_GUC_RECV_MASK final
        let status := wait.2
        let (ret, errEvents) :=
          if status ≠ INTEL_GUC_STATUS_SUCCESS then
            let r := if wait.1 ≠ -ETIMEDOUT then -errEio else wait.1
            (r, [Event.regRead (SOFT_SCRATCH 15),
                 Event.warnLog (action.getD 0 0) r status diag])
          else (wait.1, [])
        some (ret,
          [Event.lockAcquire, Event.fwGet] ++ writes ++
          [Event.regRead lastOff,
           Event.regWrite GUC_SEND_INTERRUPT GUC_SEND_TRIGGER,
           Event.pollEvent pollOff INTEL_GUC_RECV_MASK INTEL_GUC_RECV_MASK
             10 10] ++
          errEvents ++ [Event.fwPut, Event.lockRelease])
      | _, _ => none

/-- `intel_guc_send_nop(guc, action, len)`: the default backend installed by
`intel_guc_init_early`; warns and returns `-ENODEV` without touching any
register. -/
def intel_guc_send_nop (action : List Nat) : Int × List Event :=
  (-ENODEV, [Event.warnUnexpected (action.getD 0 0)])

/-- The installable send backends (`guc->send` function pointer). -/
inductive SendFn where
  | sendNop
  | sendMmio
  deriving DecidableEq, Repr

/-- The `struct intel_guc` fields relevant to the command channel. -/
structure GucChannel where
  send_regs : SendRegs
  sendFn : SendFn
  ggtt_pin_bias : Nat
  deriving DecidableEq, Repr

/-- `intel_guc_init_early`: installs `intel_guc_send_nop` as the send
backend (and `gen8_guc_raise_irq` as notify). -/
def intel_guc_init_early (guc : GucChannel) : GucChannel :=
  { guc with sendFn := SendFn.sendNop }

/-- `intel_guc_send(guc, action, len)`: dispatch through the installed
backend (`guc->send(guc, action, len)`). -/
def intel_guc_send (has_guc_ct : Bool) (guc : GucChannel)
    (action : List Nat) (final diag : Nat) : Option (Int × List Event) :=
  match guc.sendFn with
  | SendFn.sendNop => some (intel_guc_send_nop action)
  | SendFn.sendMmio =>
      intel_guc_send_mmio has_guc_ct guc.send_regs action final diag

/-! ## The controller-to-host event handler. -/

/-- State touched by `intel_guc_to_host_event_handler`: the
`SOFT_SCRATCH(15)` message register, the number of work items queued on
the flush workqueue, and `guc->log.flush_interrupt_count` (a `u32` in
`intel_guc_log.h`, so its increment wraps modulo `2 ^ 32`). -/
structure HostEventState where
  scratch15 : Nat
  queuedFlushWork : Nat
  flush_interrupt_count : Nat
  deriving DecidableEq, Repr

/-- Events observable from the interrupt handler, in program order. -/
inductive HandlerEvent where
  | readMsg (v : Nat)
  | clearWrite (v : Nat)
  | queueFlushWork
  | counterInc
  deriving DecidableEq, Repr

/-- The handled-event mask
(`INTEL_GUC_RECV_MSG_CRASH_DUMP_POSTED | INTEL_GUC_RECV_MSG_FLUSH_LOG_BUFFER`). -/
def guc_recv_msg_mask : Nat :=
  INTEL_GUC_RECV_MSG_CRASH_DUMP_POSTED ||| INTEL_GUC_RECV_MSG_FLUSH_LOG_BUFFER

/-- `intel_guc_to_host_event_handler`: read `SOFT_SCRATCH(15)`, take the
handled subset; if nonempty, write the register back with exactly those
bits cleared (`msg & ~flush`, 32-bit complement), then queue deferred work
and bump the counter; otherwise leave everything untouched.  Returns the
new state and the event trace. -/
def intel_guc_to_host_event_handler (s : HostEventState) :
    HostEventState × List HandlerEvent :=
  let msg := s.scratch15
  let flush := msg &&& guc_recv_msg_mask
  if flush ≠ 0 then
    ({ scratch15 := msg &&& (0xFFFFFFFF ^^^ flush),
       queuedFlushWork := s.queuedFlushWork + 1,
       flush_interrupt_count := (s.flush_interrupt_count + 1) % 2 ^ 32 },
     [HandlerEvent.readMsg msg,
      HandlerEvent.clearWrite (msg &&& (0xFFFFFFFF ^^^ flush)),
      HandlerEvent.queueFlushWork, HandlerEvent.counterInc])
  else
    (s, [HandlerEvent.readMsg msg])

/-! ## GGTT pin bias and VMA allocation. -/

/-- `intel_guc_init_ggtt_pin_bias`: `ggtt_pin_bias = wopcm.size -
wopcm.guc.base`.  The two `GEM_BUG_ON`s (`!i915->wopcm.size` and
`i915->wopcm.size < i915->wopcm.guc.base`) are modelled as `none`
(a fatal assertion, not a recoverable return). -/
def intel_guc_init_ggtt_pin_bias (wopcm_size guc_wopcm_base : Nat) :
    Option Nat :=
  if wopcm_size = 0 then none
  else if wopcm_size < guc_wopcm_base then none
  else some (wopcm_size - guc_wopcm_base)

/-- Resource events of the allocation paths, in program order. -/
inductive AllocEvent where
  | objCreate
  | objPut
  | vmaPinned (addr : Nat)
  | vmaUnpinAndRelease
  | mapPinned
  deriving DecidableEq, Repr

/-- Outcomes the external gem/vma layer hands back to `intel_guc_allocate_vma`:
the result of `i915_gem_object_create`, of `i915_vma_instance`, and the
address candidate the GTT allocator picks for `i915_vma_pin` (`none` when
the address space is exhausted). -/
structure AllocEnv where
  createObj : Except Int Unit
  vmaInstance : Except Int Unit
  pinCandidate : Option Nat
  deriving Repr

/-- Modelled from the spec: `i915_vma_pin(vma, 0, PAGE_SIZE, PIN_GLOBAL |
PIN_OFFSET_BIAS | bias)` (implemented in `i915_vma.c`, not in the sampled
sources) reserves a placement at or above the bias — never in
`[0, bias)` — or fails with a distinct error when no such placement
exists. -/
def i915_vma_pin (env : AllocEnv) (bias : Nat) : Except Int Nat :=
  match env.pinCandidate with
  | none => Except.error (-ENOSPC)
  | some addr => if addr < bias then Except.error (-ENOSPC)
                 else Except.ok addr

/-- `intel_guc_allocate_vma(guc, size)`: create a backing object, look up
its VMA, pin it `PIN_GLOBAL | PIN_OFFSET_BIAS | guc->ggtt_pin_bias`.  On a
failure after object creation the `err:` path runs `i915_gem_object_put`
before returning the error.  Returns the pinned address (or the error)
and the resource-event trace. -/
def intel_guc_allocate_vma (ggtt_pin_bias : Nat) (env : AllocEnv) :
    Except Int Nat × List AllocEvent :=
  match env.createObj with
  | Except.error e => (Except.error e, [])
  | Except.ok _ =>
    match env.vmaInstance with
    | Except.error e => (Except.error e, [AllocEvent.objCreate, AllocEvent.objPut])
    | Except.ok _ =>
      match i915_vma_pin env ggtt_pin_bias with
      | Except.error e =>
          (Except.error e, [AllocEvent.objCreate, AllocEvent.objPut])
      | Except.ok addr =>
          (Except.ok addr, [AllocEvent.objCreate, AllocEvent.vmaPinned addr])

/-- External outcomes for `guc_shared_data_create`: the allocation
environment plus the result of `i915_gem_object_pin_map`. -/
structure SharedDataEnv where
  alloc : AllocEnv
  pinMap : Except Int Unit
  deriving Repr

/-- `guc_shared_data_create`: allocate a one-page VMA; if the subsequent
`i915_gem_object_pin_map` fails, `i915_vma_unpin_and_release` the VMA
before returning the error. -/
def guc_shared_data_create (ggtt_pin_bias : Nat) (env : SharedDataEnv) :
    Except Int Nat × List AllocEvent :=
  match intel_guc_allocate_vma ggtt_pin_bias env.alloc with
  | (Except.error e, evs) => (Except.error e, evs)
  | (Except.ok addr, evs) =>
    match env.pinMap with
    | Except.error e =>
        (Except.error e, evs ++ [AllocEvent.vmaUnpinAndRelease])
    | Except.ok _ => (Except.ok addr, evs ++ [AllocEvent.mapPinned])

/-! ## Parameter-block verbosity encoding. -/

/-- `get_log_verbosity_flags`: for `guc_log_level > 0` return
`(guc_log_level - 1) << GUC_LOG_VERBOSITY_SHIFT`; the range check is a
`GEM_BUG_ON(verbosity > GUC_LOG_VERBOSITY_MAX)` (modelled as `none`), not
a clamp.  For `guc_log_level <= 0` return `GUC_LOG_DISABLED` after the
`GEM_BUG_ON(i915_modparams.enable_guc < 0)` assertion. -/
def get_log_verbosity_flags (guc_log_level enable_guc : Int) : Option Nat :=
  if 0 < guc_log_level then
    let verbosity : Nat := (guc_log_level - 1).toNat
    if GUC_LOG_VERBOSITY_MAX < verbosity then none
    else some (verbosity <<< GUC_LOG_VERBOSITY_SHIFT)
  else
    if enable_guc < 0 then none
    else some GUC_LOG_DISABLED

/-- Modelled from the spec: ADS address shift in the debug control word
(`GUC_ADS_ADDR_SHIFT`, `intel_guc_fwif.h`, not in the sampled sources). -/
def GUC_ADS_ADDR_SHIFT : Nat := 1

/-- Modelled from the spec: ADS-enabled flag in the debug control word
(`GUC_ADS_ENABLED`, `intel_guc_fwif.h`, not in the sampled sources). -/
def GUC_ADS_ENABLED : Nat := 1

/-- The debug word of the parameter block (`params[GUC_CTL_DEBUG]`) as
assembled by `intel_guc_init_params`: the verbosity flags, plus — only
when GuC submission is used — the page-shifted ADS address and the
ADS-enabled flag. -/
def guc_ctl_debug_param (guc_log_level enable_guc : Int)
    (uses_guc_submission : Bool) (ads : Nat) : Option Nat :=
  match get_log_verbosity_flags guc_log_level enable_guc with
  | none => none
  | some flags =>
    if uses_guc_submission then
      some ((flags ||| (ads <<< GUC_ADS_ADDR_SHIFT)) ||| GUC_ADS_ENABLED)
    else some flags

/-! ## Helper lemmas: closed form of a valid MMIO send. -/

/-- The event list produced by the write loop when no assertion fires:
action word number `j` of the remaining list goes to mailbox register
`i + j`. -/
def mmioWrites (regs : SendRegs) : Nat → List Nat → List Event
  | _, [] => []
  | i, v :: rest =>
      Event.regWrite (regs.base + 4 * i) v :: mmioWrites regs (i + 1) rest

/-- The return value of a valid MMIO send as a function of the final polled
status word. -/
def mmioRet (final : Nat) : Int :=
  if final = INTEL_GUC_STATUS_SUCCESS then 0
  else if final &&& INTEL_GUC_RECV_MASK = INTEL_GUC_RECV_MASK then -errEio
  else -ETIMEDOUT

/-- The diagnostic events of a valid MMIO send: empty on success, otherwise
the auxiliary-register read and the warning record. -/
def mmioErrEvents (a0 final diag : Nat) : List Event :=
  if final = INTEL_GUC_STATUS_SUCCESS then []
  else [Event.regRead (SOFT_SCRATCH 15),
        Event.warnLog a0 (mmioRet final) final diag]

/-- The full event trace of a valid MMIO send. -/
def mmioTrace (regs : SendRegs) (a : List Nat) (final diag : Nat) :
    List Event :=
  [Event.lockAcquire, Event.fwGet] ++ mmioWrites regs 0 a ++
  [Event.regRead (regs.base + 4 * (a.length - 1)),
   Event.regWrite GUC_SEND_INTERRUPT GUC_SEND_TRIGGER,
   Event.pollEvent regs.base INTEL_GUC_RECV_MASK INTEL_GUC_RECV_MASK 10 10]
  ++ mmioErrEvents (a.getD 0 0) final diag
  ++ [Event.fwPut, Event.lockRelease]

theorem guc_send_reg_eq (regs : SendRegs) (i : Nat) (hb : regs.base ≠ 0)
    (hc : regs.count ≠ 0) (hi : i < regs.count) :
    guc_send_reg regs i = some (regs.base + 4 * i) := by
  unfold guc_send_reg
  rw [if_neg hb, if_neg hc, if_neg (by omega)]

theorem writeActions_eq (regs : SendRegs) (hb : regs.base ≠ 0) :
    ∀ (l : List Nat) (i : Nat), i + l.length ≤ regs.count →
      writeActions regs i l = some (mmioWrites regs i l)
  | [], _, _ => rfl
  | v :: rest, i, h => by
      simp only [List.length_cons] at h
      have hc : regs.count ≠ 0 := by omega
      have hi : i < regs.count := by omega
      rw [writeActions, guc_send_reg_eq regs i hb hc hi,
          writeActions_eq regs hb rest (i + 1) (by omega)]
      rfl

/-- A valid exchange (nonzero base, `1 ≤ len ≤ count`, command-transport
caller contract respected) hits no assertion and produces the closed-form
result and trace. -/
theorem send_mmio_unfold (has_guc_ct : Bool) (regs : SendRegs)
    (a : List Nat) (final diag : Nat) (hb : regs.base ≠ 0)
    (h1 : a.length ≠ 0) (h2 : a.length ≤ regs.count)
    (h3 : ¬(has_guc_ct = true ∧
      a.getD 0 0 ≠ INTEL_GUC_ACTION_REGISTER_COMMAND_TRANSPORT_BUFFER ∧
      a.getD 0 0 ≠ INTEL_GUC_ACTION_DEREGISTER_COMMAND_TRANSPORT_BUFFER)) :
    intel_guc_send_mmio has_guc_ct regs a final diag =
      some (mmioRet final, mmioTrace regs a final diag) := by
  have hc : regs.count ≠ 0 := by omega
  unfold intel_guc_send_mmio
  rw [if_neg h1, if_neg (by omega), if_neg h3,
      writeActions_eq regs hb a 0 (by omega),
      guc_send_reg_eq regs (a.length - 1) hb hc (by omega),
      guc_send_reg_eq regs 0 hb hc (by omega)]
  simp only [wait_for_register_fw]
  by_cases hs : final = INTEL_GUC_STATUS_SUCCESS
  · subst hs
    have hm : INTEL_GUC_STATUS_SUCCESS &&& INTEL_GUC_RECV_MASK =
        INTEL_GUC_RECV_MASK := by decide
    simp [mmioRet, mmioTrace, mmioErrEvents, hm]
  · by_cases hm : final &&& INTEL_GUC_RECV_MASK = INTEL_GUC_RECV_MASK
    · have h0 : (0 : Int) ≠ -ETIMEDOUT := by decide
      simp [mmioRet, mmioTrace, mmioErrEvents, hs, hm, h0]
    · simp [mmioRet, mmioTrace, mmioErrEvents, hs, hm]

/-- `true` exactly on the MMIO access events (register write, register
read, bounded poll). -/
def Event.isRegAccess : Event → Bool
  | Event.regWrite _ _ => true
  | Event.regRead _ => true
  | Event.pollEvent _ _ _ _ _ => true
  | _ => false

/-- `true` exactly on the bounded-poll event. -/
def Event.isPoll : Event → Bool
  | Event.pollEvent _ _ _ _ _ => true
  | _ => false

/-- `true` exactly on `vmaPinned` events. -/
def AllocEvent.isPinned : AllocEvent → Bool
  | AllocEvent.vmaPinned _ => true
  | _ => false

/-- An allocation-path trace is leak-free: every created backing object is
released (directly by `i915_gem_object_put` or through
`i915_vma_unpin_and_release`), and every pin is balanced by an
unpin-and-release. -/
def leakFree (evs : List AllocEvent) : Prop :=
  evs.count AllocEvent.objCreate =
    evs.count AllocEvent.objPut + evs.count AllocEvent.vmaUnpinAndRelease ∧
  evs.countP AllocEvent.isPinned = evs.count AllocEvent.vmaUnpinAndRelease

/-! ## Claims. -/

/-- C7: PinBias initialization computes exactly
`totalReservedSize - controllerSubRegionBase` under the precondition that
the total is nonzero and at least the sub-region base; violating the
precondition fires a fatal assertion (`none`), not a recoverable
return. -/
theorem c7_pin_bias_init (wopcm_size guc_wopcm_base : Nat) :
    (wopcm_size ≠ 0 → guc_wopcm_base ≤ wopcm_size →
      intel_guc_init_ggtt_pin_bias wopcm_size guc_wopcm_base =
        some (wopcm_size - guc_wopcm_base)) ∧
    ((wopcm_size = 0 ∨ wopcm_size < guc_wopcm_base) →
      intel_guc_init_ggtt_pin_bias wopcm_size guc_wopcm_base = none) := by
  unfold intel_guc_init_ggtt_pin_bias
  constructor
  · intro h0 h1
    rw [if_neg h0, if_neg (by omega)]
  · rintro (h | h)
    · rw [if_pos h]
    · rcases Nat.eq_zero_or_pos wopcm_size with h0 | h0
      · rw [if_pos h0]
      · rw [if_neg (by omega), if_pos h]

theorem c7_pin_bias_init_witness :
    intel_guc_init_ggtt_pin_bias 8 3 = some 5 ∧
    intel_guc_init_ggtt_pin_bias 3 8 = none :=
  ⟨(c7_pin_bias_init 8 3).1 (by decide) (by decide),
   (c7_pin_bias_init 3 8).2 (Or.inr (by decide))⟩

/-- C8 counterexample: at verbosity level 6 (with submission disabled and a
nonnegative enable flag) the claim predicts the debug word encodes
`level - 1` clamped to `GUC_LOG_VERBOSITY_MAX`; the code instead hits the
`GEM_BUG_ON(verbosity > GUC_LOG_VERBOSITY_MAX)` assertion — no clamping is
performed. -/
theorem c8_debug_word_counterexample :
    guc_ctl_debug_param 6 0 false 0 = none ∧
    guc_ctl_debug_param 6 0 false 0 ≠
      some (min ((6 : Int) - 1).toNat GUC_LOG_VERBOSITY_MAX <<<
        GUC_LOG_VERBOSITY_SHIFT) := by
  constructor
  · decide
  · decide

/-- C8 (amended): with submission disabled, level `0` (and a nonnegative
enable flag) yields the logging-disabled value; for `0 < level` with
`level - 1 ≤ GUC_LOG_VERBOSITY_MAX` the encoded verbosity is exactly
`level - 1` shifted into the verbosity field (no clamping is needed); for
`level - 1 > GUC_LOG_VERBOSITY_MAX` the range assertion fires (fatal) —
the value is never clamped. -/
theorem c8_debug_word_amended (lvl enable : Int) (ads : Nat) :
    (lvl = 0 → 0 ≤ enable →
      guc_ctl_debug_param lvl enable false ads = some GUC_LOG_DISABLED) ∧
    (0 < lvl → (lvl - 1).toNat ≤ GUC_LOG_VERBOSITY_MAX →
      guc_ctl_debug_param lvl enable false ads =
        some ((lvl - 1).toNat <<< GUC_LOG_VERBOSITY_SHIFT)) ∧
    (0 < lvl → GUC_LOG_VERBOSITY_MAX < (lvl - 1).toNat →
      guc_ctl_debug_param lvl enable false ads = none) := by
  unfold guc_ctl_debug_param get_log_verbosity_flags
  refine ⟨fun h0 he => ?_, fun hp hle => ?_, fun hp hgt => ?_⟩
  · rw [if_neg (by omega), if_neg (by omega)]
    rfl
  · rw [if_pos hp, if_neg (by omega)]
    rfl
  · rw [if_pos hp, if_pos hgt]

theorem c8_debug_word_amended_witness :
    guc_ctl_debug_param 0 0 false 0 = some GUC_LOG_DISABLED ∧
    guc_ctl_debug_param 3 0 false 0 =
      some (((3 : Int) - 1).toNat <<< GUC_LOG_VERBOSITY_SHIFT) ∧
    guc_ctl_debug_param 6 1 false 0 = none :=
  ⟨(c8_debug_word_amended 0 0 0).1 rfl (by decide),
   (c8_debug_word_amended 3 0 0).2.1 (by decide) (by decide),
   (c8_debug_word_amended 6 1 0).2.2 (by decide) (by decide)⟩

/-- C10: after `intel_guc_init_early`, the installed send backend returns
`-ENODEV` for every action array, and its trace contains no register
access (no MMIO write, read, or poll). -/
theorem c10_send_before_backend (has_guc_ct : Bool) (guc : GucChannel)
    (action : List Nat) (final diag : Nat) :
    ∃ tr, intel_guc_send has_guc_ct (intel_guc_init_early guc) action
        final diag = some (-ENODEV, tr) ∧
      ∀ e ∈ tr, Event.isRegAccess e = false := by
  refine ⟨[Event.warnUnexpected (action.getD 0 0)], rfl, ?_⟩
  intro e he
  simp only [List.mem_singleton] at he
  subst he
  rfl

/-- C4: after PinBias has been initialized from `(total, subBase)` with
`total ≥ subBase`, every successful allocation is placed at or above
`total - subBase`. -/
theorem c4_allocate_respects_pin_bias (total subBase bias : Nat)
    (env : AllocEnv) (addr : Nat)
    (hinit : intel_guc_init_ggtt_pin_bias total subBase = some bias)
    (halloc : (intel_guc_allocate_vma bias env).1 = Except.ok addr) :
    total - subBase ≤ addr := by
  unfold intel_guc_init_ggtt_pin_bias at hinit
  split at hinit
  · exact absurd hinit (by simp)
  · split at hinit
    · exact absurd hinit (by simp)
    · have hbias : bias = total - subBase := by
        simpa using hinit.symm
      subst hbias
      unfold intel_guc_allocate_vma i915_vma_pin at halloc
      rcases env with ⟨co, vi, pc⟩
      rcases co with a | u
      · simp at halloc
      · rcases vi with a | u
        · simp at halloc
        · rcases pc with _ | cand
          · simp at halloc
          · by_cases hlt : cand < total - subBase
            · simp [hlt] at halloc
            · simp [hlt] at halloc
              omega

theorem c4_allocate_respects_pin_bias_witness :
    (10 : Nat) - 3 ≤ 9 :=
  c4_allocate_respects_pin_bias 10 3 7
    ⟨Except.ok (), Except.ok (), some 9⟩ 9 (by rfl) (by rfl)

/-- C5: an allocation that fails after the backing object was created
releases the object before returning, and the shared-data creation path
releases the pinned region when the mapping step fails — failed paths
leave no leaked region. -/
theorem c5_failed_alloc_releases (bias : Nat) (env : AllocEnv)
    (senv : SharedDataEnv) :
    (∀ e1, (intel_guc_allocate_vma bias env).1 = Except.error e1 →
      leakFree (intel_guc_allocate_vma bias env).2) ∧
    (∀ e2, (guc_shared_data_create bias senv).1 = Except.error e2 →
      leakFree (guc_shared_data_create bias senv).2) := by
  constructor
  · intro e1 h
    unfold intel_guc_allocate_vma i915_vma_pin at h ⊢
    rcases env with ⟨co, vi, pc⟩
    rcases co with a | u
    · exact ⟨rfl, rfl⟩
    · rcases vi with a | u
      · exact ⟨rfl, rfl⟩
      · rcases pc with _ | cand
        · exact ⟨rfl, rfl⟩
        · by_cases hlt : cand < bias
          · simp only [hlt, if_pos]
            exact ⟨rfl, rfl⟩
          · simp [hlt] at h
  · intro e2 h
    unfold guc_shared_data_create intel_guc_allocate_vma i915_vma_pin at h ⊢
    rcases senv with ⟨⟨co, vi, pc⟩, pm⟩
    rcases co with a | u
    · exact ⟨rfl, rfl⟩
    · rcases vi with a | u
      · exact ⟨rfl, rfl⟩
      · rcases pc with _ | cand
        · exact ⟨rfl, rfl⟩
        · by_cases hlt : cand < bias
          · simp only [hlt, if_pos]
            exact ⟨rfl, rfl⟩
          · rcases pm with a | u
            · simp only [hlt, if_neg, ite_false]
              exact ⟨rfl, rfl⟩
            · simp [hlt] at h

theorem c5_failed_alloc_releases_witness :
    leakFree (intel_guc_allocate_vma 5
      ⟨Except.ok (), Except.error (-ENOSPC), some 9⟩).2 :=
  (c5_failed_alloc_releases 5 ⟨Except.ok (), Except.error (-ENOSPC), some 9⟩
    ⟨⟨Except.ok (), Except.error (-ENOSPC), some 9⟩, Except.ok ()⟩).1
    (-ENOSPC) (by rfl)

/-- C3 counterexample: the handled-event counter is a `u32`
(`intel_guc_log.h`), so its increment wraps: with the flush bits pending
and the counter at `2 ^ 32 - 1`, handling the event wraps it to `0` —
the claim's "the counter never decreases" fails at this input. -/
theorem c3_event_handler_counterexample :
    ¬ ((⟨10, 0, 2 ^ 32 - 1⟩ : HostEventState).flush_interrupt_count ≤
        (intel_guc_to_host_event_handler
          ⟨10, 0, 2 ^ 32 - 1⟩).1.flush_interrupt_count) := by
  decide

/-- C3 (amended): the interrupt handler reads the event register once;
when the handled subset (crash-dump-posted, flush-log-buffer) is nonempty
it first writes the register back with exactly those bits cleared — every
other bit of the read value preserved — and only after that clear-write
enqueues deferred work and increments the handled-event counter modulo
`2 ^ 32` (the `u32` counter never decreases except when it wraps from
`2 ^ 32 - 1` to `0`); when the subset is empty nothing is written or
enqueued. -/
theorem c3_event_handler_amended (s : HostEventState)
    (hmsg : s.scratch15 < 2 ^ 32) :
    (s.scratch15 &&& guc_recv_msg_mask ≠ 0 →
      intel_guc_to_host_event_handler s =
        ({ scratch15 := s.scratch15 &&&
             (0xFFFFFFFF ^^^ (s.scratch15 &&& guc_recv_msg_mask)),
           queuedFlushWork := s.queuedFlushWork + 1,
           flush_interrupt_count := (s.flush_interrupt_count + 1) % 2 ^ 32 },
         [HandlerEvent.readMsg s.scratch15,
          HandlerEvent.clearWrite (s.scratch15 &&&
            (0xFFFFFFFF ^^^ (s.scratch15 &&& guc_recv_msg_mask))),
          HandlerEvent.queueFlushWork, HandlerEvent.counterInc]) ∧
      ∀ k, (s.scratch15 &&&
          (0xFFFFFFFF ^^^ (s.scratch15 &&& guc_recv_msg_mask))).testBit k =
        (s.scratch15.testBit k &&
          !((s.scratch15 &&& guc_recv_msg_mask).testBit k))) ∧
    (s.scratch15 &&& guc_recv_msg_mask = 0 →
      intel_guc_to_host_event_handler s =
        (s, [HandlerEvent.readMsg s.scratch15])) ∧
    (s.flush_interrupt_count + 1 < 2 ^ 32 →
      s.flush_interrupt_count ≤
        (intel_guc_to_host_event_handler s).1.flush_interrupt_count) := by
  refine ⟨fun hne => ⟨?_, ?_⟩, fun hz => ?_, fun hlt => ?_⟩
  · simp [intel_guc_to_host_event_handler, hne]
  · intro k
    have hM : (0xFFFFFFFF : Nat) = 2 ^ 32 - 1 := by norm_num
    rw [Nat.testBit_and, Nat.testBit_xor, hM, Nat.testBit_two_pow_sub_one]
    by_cases hk : k < 32
    · simp [hk]
    · have h1 : s.scratch15.testBit k = false := by
        refine Nat.testBit_lt_two_pow ?_
        calc s.scratch15 < 2 ^ 32 := hmsg
          _ ≤ 2 ^ k := Nat.pow_le_pow_right (by norm_num) (by omega)
      have h2 : (s.scratch15 &&& guc_recv_msg_mask).testBit k = false := by
        rw [Nat.testBit_and, h1]
        rfl
      simp [hk, h1, h2]
  · simp [intel_guc_to_host_event_handler, hz]
  · by_cases hne : s.scratch15 &&& guc_recv_msg_mask ≠ 0
    · simp [intel_guc_to_host_event_handler, hne]
      omega
    · simp only [ne_eq, not_not] at hne
      simp [intel_guc_to_host_event_handler, hne]

theorem c3_event_handler_amended_witness :
    intel_guc_to_host_event_handler ⟨10, 4, 7⟩ =
      ({ scratch15 := 10 &&& (0xFFFFFFFF ^^^ (10 &&& guc_recv_msg_mask)),
         queuedFlushWork := 5,
         flush_interrupt_count := (7 + 1) % 2 ^ 32 },
       [HandlerEvent.readMsg 10,
        HandlerEvent.clearWrite
          (10 &&& (0xFFFFFFFF ^^^ (10 &&& guc_recv_msg_mask))),
        HandlerEvent.queueFlushWork, HandlerEvent.counterInc]) :=
  ((c3_event_handler_amended ⟨10, 4, 7⟩ (by norm_num)).1 (by decide)).1

/-! ### Shape lemmas about the write-loop trace. -/

theorem mem_mmioWrites (regs : SendRegs) :
    ∀ (l : List Nat) (i : Nat) (e : Event), e ∈ mmioWrites regs i l →
      ∃ off v, e = Event.regWrite off v
  | [], _, e => by
      intro h
      simp [mmioWrites] at h
  | v :: rest, i, e => by
      intro h
      rw [mmioWrites] at h
      rcases List.mem_cons.mp h with h1 | h1
      · exact ⟨_, _, h1⟩
      · exact mem_mmioWrites regs rest (i + 1) e h1

theorem mmioWrites_map (regs : SendRegs) :
    ∀ (l : List Nat) (i : Nat),
      mmioWrites regs i l = (List.range l.length).map
        (fun j => Event.regWrite (regs.base + 4 * (i + j)) (l.getD j 0))
  | [], _ => rfl
  | v :: rest, i => by
      rw [mmioWrites, mmioWrites_map regs rest (i + 1),
          List.length_cons, List.range_succ_eq_map, List.map_cons,
          List.map_map]
      refine congrArg₂ List.cons (by simp) (List.map_congr_left ?_)
      intro j hj
      simp only [Function.comp_apply, List.getD_cons_succ]
      congr 1
      omega

theorem countP_isPoll_mmioWrites (regs : SendRegs) (l : List Nat) (i : Nat) :
    (mmioWrites regs i l).countP Event.isPoll = 0 :=
  List.countP_eq_zero.mpr (fun e he => by
    rcases mem_mmioWrites regs l i e he with ⟨off, v, rfl⟩
    simp [Event.isPoll])

theorem warnLog_not_mem_mmioWrites (regs : SendRegs) (l : List Nat) (i : Nat)
    (a0 : Nat) (rv : Int) (st dg : Nat) :
    Event.warnLog a0 rv st dg ∉ mmioWrites regs i l := by
  intro h
  rcases mem_mmioWrites regs l i _ h with ⟨off, v, hev⟩
  exact Event.noConfusion hev

/-- C1: a valid send writes each action word `a[i]` into mailbox register
`i` in increasing index order, then reads back the last-written register
(index `len - 1`), then writes the doorbell trigger value to the
dedicated interrupt register, and only then polls mailbox register 0 for
the response-ready bits with a 10 ms total timeout and 10 µs poll
granularity. -/
theorem c1_send_mmio_step_order (has_guc_ct : Bool) (regs : SendRegs)
    (a : List Nat) (final diag : Nat) (hb : regs.base ≠ 0)
    (h1 : 1 ≤ a.length) (h2 : a.length ≤ regs.count)
    (h3 : ¬(has_guc_ct = true ∧
      a.getD 0 0 ≠ INTEL_GUC_ACTION_REGISTER_COMMAND_TRANSPORT_BUFFER ∧
      a.getD 0 0 ≠ INTEL_GUC_ACTION_DEREGISTER_COMMAND_TRANSPORT_BUFFER)) :
    ∃ r tail,
      intel_guc_send_mmio has_guc_ct regs a final diag =
        some (r,
          [Event.lockAcquire, Event.fwGet] ++
          (List.range a.length).map
            (fun i => Event.regWrite (regs.base + 4 * i) (a.getD i 0)) ++
          [Event.regRead (regs.base + 4 * (a.length - 1)),
           Event.regWrite GUC_SEND_INTERRUPT GUC_SEND_TRIGGER,
           Event.pollEvent regs.base INTEL_GUC_RECV_MASK
             INTEL_GUC_RECV_MASK 10 10] ++ tail) := by
  refine ⟨mmioRet final,
    mmioErrEvents (a.getD 0 0) final diag ++
      [Event.fwPut, Event.lockRelease], ?_⟩
  rw [send_mmio_unfold has_guc_ct regs a final diag hb (by omega) h2 h3]
  unfold mmioTrace
  rw [mmioWrites_map]
  simp [List.append_assoc]

theorem c1_send_mmio_step_order_witness :
    ∃ r tail,
      intel_guc_send_mmio false ⟨0xc180, 15, 0⟩ [11, 22] 0 0 =
        some (r,
          [Event.lockAcquire, Event.fwGet] ++
          (List.range ([11, 22] : List Nat).length).map
            (fun i => Event.regWrite (0xc180 + 4 * i)
              (([11, 22] : List Nat).getD i 0)) ++
          [Event.regRead (0xc180 + 4 * (([11, 22] : List Nat).length - 1)),
           Event.regWrite GUC_SEND_INTERRUPT GUC_SEND_TRIGGER,
           Event.pollEvent 0xc180 INTEL_GUC_RECV_MASK
             INTEL_GUC_RECV_MASK 10 10] ++ tail) :=
  c1_send_mmio_step_order false ⟨0xc180, 15, 0⟩ [11, 22] 0 0
    (by decide) (by decide) (by decide) (by decide)

/-- C2: a valid send returns exactly `0` when the polled status word is the
success code (no diagnostic), `-ETIMEDOUT` when no response-ready bits
arrived within the timeout, and `-EIO` when a response arrived whose
status is not the success code; in both failure cases the diagnostic
carries the action code, the returned error, the raw status, and the
auxiliary `SOFT_SCRATCH(15)` value (which is read for it); the trace
contains exactly one poll — no internal retry. -/
theorem c2_send_mmio_result_classification (has_guc_ct : Bool)
    (regs : SendRegs) (a : List Nat) (final diag : Nat)
    (hb : regs.base ≠ 0) (h1 : 1 ≤ a.length) (h2 : a.length ≤ regs.count)
    (h3 : ¬(has_guc_ct = true ∧
      a.getD 0 0 ≠ INTEL_GUC_ACTION_REGISTER_COMMAND_TRANSPORT_BUFFER ∧
      a.getD 0 0 ≠ INTEL_GUC_ACTION_DEREGISTER_COMMAND_TRANSPORT_BUFFER)) :
    ∃ r tr,
      intel_guc_send_mmio has_guc_ct regs a final diag = some (r, tr) ∧
      (final = INTEL_GUC_STATUS_SUCCESS →
        r = 0 ∧ ∀ a0 rv st dg, Event.warnLog a0 rv st dg ∉ tr) ∧
      (final &&& INTEL_GUC_RECV_MASK ≠ INTEL_GUC_RECV_MASK →
        r = -ETIMEDOUT ∧
        Event.warnLog (a.getD 0 0) (-ETIMEDOUT) final diag ∈ tr ∧
        Event.regRead (SOFT_SCRATCH 15) ∈ tr) ∧
      (final &&& INTEL_GUC_RECV_MASK = INTEL_GUC_RECV_MASK →
        final ≠ INTEL_GUC_STATUS_SUCCESS →
        r = -errEio ∧
        Event.warnLog (a.getD 0 0) (-errEio) final diag ∈ tr ∧
        Event.regRead (SOFT_SCRATCH 15) ∈ tr) ∧
      tr.countP Event.isPoll = 1 := by
  refine ⟨mmioRet final, mmioTrace regs a final diag,
    send_mmio_unfold has_guc_ct regs a final diag hb (by omega) h2 h3,
    fun hs => ?_, fun hm => ?_, fun hm hs => ?_, ?_⟩
  · subst hs
    refine ⟨by simp [mmioRet], ?_⟩
    intro a0 rv st dg
    have hw := warnLog_not_mem_mmioWrites regs a 0 a0 rv st dg
    simp [mmioTrace, mmioErrEvents, hw]
  · have hs : final ≠ INTEL_GUC_STATUS_SUCCESS := by
      intro h
      exact hm (by rw [h]; decide)
    have hr : mmioRet final = -ETIMEDOUT := by
      simp [mmioRet, hs, hm]
    refine ⟨hr, ?_, ?_⟩
    · simp [mmioTrace, mmioErrEvents, hs, hr]
    · simp [mmioTrace, mmioErrEvents, hs]
  · have hr : mmioRet final = -errEio := by
      simp [mmioRet, hs, hm]
    refine ⟨hr, ?_, ?_⟩
    · simp [mmioTrace, mmioErrEvents, hs, hr]
    · simp [mmioTrace, mmioErrEvents, hs]
  · by_cases hs : final = INTEL_GUC_STATUS_SUCCESS <;>
      simp [mmioTrace, mmioErrEvents, List.countP_append,
        countP_isPoll_mmioWrites, hs, Event.isPoll, List.countP_cons]

theorem c2_send_mmio_result_classification_witness :
    ∃ r tr,
      intel_guc_send_mmio false ⟨0xc180, 15, 0⟩ [11, 22] 0 0 =
        some (r, tr) ∧
      ((0 : Nat) = INTEL_GUC_STATUS_SUCCESS →
        r = 0 ∧ ∀ a0 rv st dg, Event.warnLog a0 rv st dg ∉ tr) ∧
      ((0 : Nat) &&& INTEL_GUC_RECV_MASK ≠ INTEL_GUC_RECV_MASK →
        r = -ETIMEDOUT ∧
        Event.warnLog (([11, 22] : List Nat).getD 0 0) (-ETIMEDOUT) 0 0 ∈ tr ∧
        Event.regRead (SOFT_SCRATCH 15) ∈ tr) ∧
      ((0 : Nat) &&& INTEL_GUC_RECV_MASK = INTEL_GUC_RECV_MASK →
        (0 : Nat) ≠ INTEL_GUC_STATUS_SUCCESS →
        r = -errEio ∧
        Event.warnLog (([11, 22] : List Nat).getD 0 0) (-errEio) 0 0 ∈ tr ∧
        Event.regRead (SOFT_SCRATCH 15) ∈ tr) ∧
      tr.countP Event.isPoll = 1 :=
  c2_send_mmio_result_classification false ⟨0xc180, 15, 0⟩ [11, 22] 0 0
    (by decide) (by decide) (by decide) (by decide)

/-- C6: a valid send acquires the command lock, then the power domains,
and on every exit path releases the power domains first and then the
lock; none of the four acquire/release events occurs anywhere else in
the exchange, so they are exactly balanced. -/
theorem c6_send_lock_forcewake_discipline (has_guc_ct : Bool)
    (regs : SendRegs) (a : List Nat) (final diag : Nat)
    (hb : regs.base ≠ 0) (h1 : 1 ≤ a.length) (h2 : a.length ≤ regs.count)
    (h3 : ¬(has_guc_ct = true ∧
      a.getD 0 0 ≠ INTEL_GUC_ACTION_REGISTER_COMMAND_TRANSPORT_BUFFER ∧
      a.getD 0 0 ≠ INTEL_GUC_ACTION_DEREGISTER_COMMAND_TRANSPORT_BUFFER)) :
    ∃ r mid,
      intel_guc_send_mmio has_guc_ct regs a final diag =
        some (r, [Event.lockAcquire, Event.fwGet] ++ mid ++
          [Event.fwPut, Event.lockRelease]) ∧
      Event.lockAcquire ∉ mid ∧ Event.fwGet ∉ mid ∧
      Event.fwPut ∉ mid ∧ Event.lockRelease ∉ mid := by
  refine ⟨mmioRet final,
    mmioWrites regs 0 a ++
      ([Event.regRead (regs.base + 4 * (a.length - 1)),
        Event.regWrite GUC_SEND_INTERRUPT GUC_SEND_TRIGGER,
        Event.pollEvent regs.base INTEL_GUC_RECV_MASK
          INTEL_GUC_RECV_MASK 10 10] ++
       mmioErrEvents (a.getD 0 0) final diag), ?_, ?_, ?_, ?_, ?_⟩
  · rw [send_mmio_unfold has_guc_ct regs a final diag hb (by omega) h2 h3]
    simp [mmioTrace, List.append_assoc]
  all_goals
    intro hmem
    rcases List.mem_append.mp hmem with hmem1 | hmem1
  all_goals
    first
      | (rcases mem_mmioWrites regs a 0 _ hmem1 with ⟨off, v, hev⟩;
         exact Event.noConfusion hev)
      | (rcases List.mem_append.mp hmem1 with hmem2 | hmem2
         · simp at hmem2
         · unfold mmioErrEvents at hmem2
           split at hmem2 <;> simp at hmem2)

theorem c6_send_lock_forcewake_discipline_witness :
    ∃ r mid,
      intel_guc_send_mmio false ⟨0xc180, 15, 0⟩ [11, 22] 0 0 =
        some (r, [Event.lockAcquire, Event.fwGet] ++ mid ++
          [Event.fwPut, Event.lockRelease]) ∧
      Event.lockAcquire ∉ mid ∧ Event.fwGet ∉ mid ∧
      Event.fwPut ∉ mid ∧ Event.lockRelease ∉ mid :=
  c6_send_lock_forcewake_discipline false ⟨0xc180, 15, 0⟩ [11, 22] 0 0
    (by decide) (by decide) (by decide) (by decide)

/-- C9: with an initialized window (nonzero base, positive count) and
`1 ≤ len ≤ count`, every register index a send computes — the write
indices `0..len-1`, the read-back index `len-1`, and the poll index `0` —
is strictly below `count`, the register-lookup helper succeeds at each of
them (its bounds assertions cannot fire), and the whole exchange hits no
assertion. -/
theorem c9_send_indices_in_bounds (has_guc_ct : Bool) (regs : SendRegs)
    (a : List Nat) (final diag : Nat) (hb : regs.base ≠ 0)
    (hcnt : 0 < regs.count) (h1 : 1 ≤ a.length) (h2 : a.length ≤ regs.count)
    (h3 : ¬(has_guc_ct = true ∧
      a.getD 0 0 ≠ INTEL_GUC_ACTION_REGISTER_COMMAND_TRANSPORT_BUFFER ∧
      a.getD 0 0 ≠ INTEL_GUC_ACTION_DEREGISTER_COMMAND_TRANSPORT_BUFFER)) :
    (∀ i, i < a.length → i < regs.count ∧ (guc_send_reg regs i).isSome) ∧
    (a.length - 1 < regs.count ∧
      (guc_send_reg regs (a.length - 1)).isSome) ∧
    (0 < regs.count ∧ (guc_send_reg regs 0).isSome) ∧
    (intel_guc_send_mmio has_guc_ct regs a final diag).isSome := by
  have hreg : ∀ i, i < regs.count → (guc_send_reg regs i).isSome := by
    intro i hi
    rw [guc_send_reg_eq regs i hb (by omega) hi]
    rfl
  refine ⟨fun i hi => ⟨by omega, hreg i (by omega)⟩,
    ⟨by omega, hreg _ (by omega)⟩, ⟨hcnt, hreg 0 hcnt⟩, ?_⟩
  rw [send_mmio_unfold has_guc_ct regs a final diag hb (by omega) h2 h3]
  rfl

theorem c9_send_indices_in_bounds_witness :
    (∀ i, i < ([11, 22] : List Nat).length →
      i < (15 : Nat) ∧ (guc_send_reg ⟨0xc180, 15, 0⟩ i).isSome) ∧
    (([11, 22] : List Nat).length - 1 < (15 : Nat) ∧
      (guc_send_reg ⟨0xc180, 15, 0⟩ (([11, 22] : List Nat).length - 1)).isSome) ∧
    ((0 : Nat) < 15 ∧ (guc_send_reg ⟨0xc180, 15, 0⟩ 0).isSome) ∧
    (intel_guc_send_mmio false ⟨0xc180, 15, 0⟩ [11, 22] 0 0).isSome :=
  c9_send_indices_in_bounds false ⟨0xc180, 15, 0⟩ [11, 22] 0 0
    (by decide) (by decide) (by decide) (by decide) (by decide)

end IntelGuc
